import Mathlib

/-!
Verification of the coherence-js-client core against its specification.

The definitions below are a shallow embedding of the two core source files:
  * src/cache/streamed_collection.ts  (PagedSet views and PageAdvancer)
  * src/event/map-events-manager.ts   (MapEventsManager and ListenerGroup)
Each definition carries a comment naming the source construct it embeds.
-/

namespace Coherence

/-! ## PageAdvancer (streamed_collection.ts, lines 226-305) -/

/-- A cookie in the source is `Uint8Array | string | undefined`; `none` models
null or undefined and `some bs` a byte string. -/
abbrev Cookie := Option (List Nat)

/-- The emptiness test used by the end handler of loadNextPage, line 279:
`self.cookie == null || self.cookie.length == 0`. -/
def cookieIsEmpty : Cookie → Bool
  | none => true
  | some bs => bs.length == 0

/-- The `IStreamedDataHelper` strategy (lines 297-305): `loadNextPage` is modelled
by the page list supplied to the run functions below, so only the two pure
operations remain. -/
structure StreamedHelper (R T : Type) where
  extractCookie : R → Cookie
  handleEntry : R → T

/-- The mutable fields of `PageAdvancer` (lines 226-242); the unused cursor
field `current` is omitted. -/
structure PageAdvancerState (R : Type) where
  exhausted : Bool
  data : List R
  cookie : Cookie

/-- Constructor state of `PageAdvancer` (lines 238-242): not exhausted, empty
buffer, cookie undefined. -/
def advInit {R : Type} : PageAdvancerState R :=
  { exhausted := false, data := [], cookie := none }

variable {R T : Type}

/-- Model of `PageAdvancer.loadNextPage` (lines 259-293) consuming one server
page given as its raw message list: the data handler treats the first message
as the cookie envelope (`cookie := extractCookie(first)`) and pushes every
later message onto `data`; the end handler sets
`exhausted := (cookie == null || cookie.length == 0)`. -/
def loadNextPage (h : StreamedHelper R T) (st : PageAdvancerState R) (msgs : List R) :
    PageAdvancerState R :=
  let newCookie :=
    match msgs with
    | [] => st.cookie
    | first :: _ => h.extractCookie first
  { exhausted := cookieIsEmpty newCookie
    data := msgs.tail
    cookie := newCookie }

/-- Outcome of one `next()` call. `stuck` is model-only: the finite page list
ran out while the advancer wanted to issue another page RPC (under the wire
contract the server always answers, so theorems exclude this case). -/
inductive NextOutcome (T : Type)
  | value (t : T)
  | done
  | stuck

/-- Model of one `PageAdvancer.next()` call (lines 244-257) against the list of
remaining server pages: if the buffer is non-empty, shift the front and return
`handleEntry` of it; else if exhausted, signal done; else load the next page
and retry, counting one RPC. Returns the outcome, the state after the call,
the remaining pages, and the number of page RPCs the call issued. -/
def nextCall (h : StreamedHelper R T) :
    PageAdvancerState R → List (List R) →
      NextOutcome T × PageAdvancerState R × List (List R) × Nat
  | ⟨e, d :: ds, c⟩, pages => (NextOutcome.value (h.handleEntry d), ⟨e, ds, c⟩, pages, 0)
  | ⟨e, [], c⟩, pages =>
    if e then (NextOutcome.done, ⟨e, [], c⟩, pages, 0)
    else
      match pages with
      | [] => (NextOutcome.stuck, ⟨e, [], c⟩, pages, 0)
      | p :: ps =>
        let r := nextCall h (loadNextPage h ⟨e, [], c⟩ p) ps
        (r.1, r.2.1, r.2.2.1, r.2.2.2 + 1)
termination_by _ pages => pages.length

/-- The values produced by repeated `next()` calls until done (or until the
model page list runs out): the loop of next() (lines 244-257) unfolded. -/
def runAdvancer (h : StreamedHelper R T) :
    PageAdvancerState R → List (List R) → List T
  | ⟨e, d :: ds, c⟩, pages => h.handleEntry d :: runAdvancer h ⟨e, ds, c⟩ pages
  | ⟨e, [], c⟩, pages =>
    if e then []
    else
      match pages with
      | [] => []
      | p :: ps => runAdvancer h (loadNextPage h ⟨e, [], c⟩ p) ps
termination_by st pages => (pages.length, st.data.length)

/-- The number of page RPCs issued across repeated `next()` calls until done. -/
def runAdvancerRPCs (h : StreamedHelper R T) :
    PageAdvancerState R → List (List R) → Nat
  | ⟨e, _ :: ds, c⟩, pages => runAdvancerRPCs h ⟨e, ds, c⟩ pages
  | ⟨e, [], c⟩, pages =>
    if e then 0
    else
      match pages with
      | [] => 0
      | p :: ps => runAdvancerRPCs h (loadNextPage h ⟨e, [], c⟩ p) ps + 1
termination_by st pages => (pages.length, st.data.length)

/-- Whether a page (its raw message list) carries an empty continuation cookie
in its first message. -/
def pageCookieEmpty (h : StreamedHelper R T) : List R → Bool
  | [] => true
  | first :: _ => cookieIsEmpty (h.extractCookie first)

/-- Specification-side description of the items a page sequence should yield:
the non-first messages of every page up to and including the first page whose
cookie is empty. -/
def fetchedEntries (h : StreamedHelper R T) : List (List R) → List R
  | [] => []
  | p :: ps => p.tail ++ (if pageCookieEmpty h p then [] else fetchedEntries h ps)

/-! ## ListenerGroup (map-events-manager.ts, lines 436-692)

Listeners and keys are identified by natural numbers: a Javascript Map keyed by
listener objects compares by object identity, and the key map (the custom Map
from util) compares keys by their stringified form; either way distinct numbers
model distinct identities. -/

abbrev Listener := Nat

abbrev MapKey := Nat

/-- A request written to the duplex stream by doSubscribe (lines 576-581,
subscribe = true with the lite flag) or doUnsubscribe (lines 586-592). -/
inductive WireRequest
  | subscribeReq (isLite : Bool)
  | unsubscribeReq
deriving DecidableEq

/-- Lookup in a Javascript Map modelled as an insertion-ordered association
list. -/
def jsMapGet {A : Type} (m : List (Nat × A)) (k : Nat) : Option A :=
  (m.find? (fun p => p.1 == k)).map (fun p => p.2)

/-- Javascript Map.set: update in place if the key is present, else append
(insertion order is preserved). -/
def jsMapSet {A : Type} (m : List (Nat × A)) (k : Nat) (v : A) : List (Nat × A) :=
  if (m.find? (fun p => p.1 == k)).isSome then
    m.map (fun p => if p.1 == k then (k, v) else p)
  else
    m ++ [(k, v)]

/-- Javascript Map.delete. -/
def jsMapDelete {A : Type} (m : List (Nat × A)) (k : Nat) : List (Nat × A) :=
  m.filter (fun p => p.1 != k)

/-- The mutable fields of `ListenerGroup` (lines 436-492). `listeners` is the
Javascript Map of listener to its lite record, in insertion order.
`isLiteFalseCount` is an integer because the source uses an unbounded
Javascript number. -/
structure ListenerGroupState where
  isActive : Bool
  registeredIsLite : Bool
  listeners : List (Listener × Bool)
  isLiteFalseCount : Int
deriving DecidableEq

/-- Field initializers of `ListenerGroup` (lines 446-476): initially active,
registeredIsLite = true, no listeners, zero count. -/
def lgInit : ListenerGroupState :=
  { isActive := true, registeredIsLite := true, listeners := [], isLiteFalseCount := 0 }

/-- The tail of `ListenerGroup.addListener` after the early no-op return
(lines 514-535): insert or update the record, increment `isLiteFalseCount` if
the new record is non-lite, and decide re-registration via
`listeners.size == 1 || registeredIsLite && !isLite`; if required, set
`registeredIsLite := isLite` and send UNSUBSCRIBE (when the group has more
than one listener) followed by SUBSCRIBE(isLite). -/
def lgAddListenerInsert (g : ListenerGroupState) (listener : Listener) (isLite : Bool) :
    ListenerGroupState × List WireRequest :=
  let ls := jsMapSet g.listeners listener isLite
  let cnt := if !isLite then g.isLiteFalseCount + 1 else g.isLiteFalseCount
  let g1 : ListenerGroupState :=
    { g with listeners := ls, isLiteFalseCount := cnt }
  let requireRegistrationRequest := ls.length == 1 || (g1.registeredIsLite && !isLite)
  if requireRegistrationRequest then
    let g2 := { g1 with registeredIsLite := isLite }
    if ls.length > 1 then
      (g2, [WireRequest.unsubscribeReq, WireRequest.subscribeReq isLite])
    else
      (g2, [WireRequest.subscribeReq isLite])
  else
    (g1, [])

/-- Model of `ListenerGroup.addListener` (lines 504-536): a listener already
present with the same lite flag is a no-op; otherwise fall through to the
insertion and registration logic. -/
def lgAddListener (g : ListenerGroupState) (listener : Listener) (isLite : Bool) :
    ListenerGroupState × List WireRequest :=
  match jsMapGet g.listeners listener with
  | some prevIsLite =>
    if prevIsLite == isLite then (g, [])
    else lgAddListenerInsert g listener isLite
  | none => lgAddListenerInsert g listener isLite

/-- Model of `ListenerGroup.removeListener` (lines 543-568): no-op if the
listener is absent or the group is empty; delete the record; if the group
became empty, UNSUBSCRIBE; else if the removed record was non-lite, decrement
the count and, when it reaches zero, UNSUBSCRIBE then SUBSCRIBE(lite = true).
The source never updates `registeredIsLite` on this path. -/
def lgRemoveListener (g : ListenerGroupState) (listener : Listener) :
    ListenerGroupState × List WireRequest :=
  match jsMapGet g.listeners listener with
  | none => (g, [])
  | some prevIsLite =>
    if g.listeners.length == 0 then (g, [])
    else
      let g1 := { g with listeners := jsMapDelete g.listeners listener }
      if g1.listeners.length == 0 then
        (g1, [WireRequest.unsubscribeReq])
      else if !prevIsLite then
        let g2 := { g1 with isLiteFalseCount := g1.isLiteFalseCount - 1 }
        if g2.isLiteFalseCount == 0 then
          (g2, [WireRequest.unsubscribeReq, WireRequest.subscribeReq true])
        else
          (g2, [])
      else
        (g1, [])

/-! ## MapEventsManager key registration (map-events-manager.ts, lines 262-285)

`KeyListenerGroup.postUnsubscribe` (lines 656-660) deserializes the key of the
unsubscribe request and deletes it from the key map; it runs exactly when
`doUnsubscribe` sent an UNSUBSCRIBE request. The serializer round-trip is the
identity on the key fingerprint (the serializer contract). -/

/-- The key-listener portion of the `MapEventsManager` state: the key map and
the requests written to the duplex stream, in order. -/
structure KeyMgrState where
  keyMap : List (MapKey × ListenerGroupState)
  wire : List WireRequest
deriving DecidableEq

/-- Fresh manager: empty key map, nothing written. -/
def keyMgrInit : KeyMgrState := { keyMap := [], wire := [] }

/-- Model of `MapEventsManager.registerKeyListener` (lines 262-270): get or
create the group for the key, store it in the key map, and run addListener;
if addListener caused an UNSUBSCRIBE, `KeyListenerGroup.postUnsubscribe`
removed the key from the key map. -/
def registerKeyListener (st : KeyMgrState) (listener : Listener) (key : MapKey)
    (isLite : Bool) : KeyMgrState :=
  let g :=
    match jsMapGet st.keyMap key with
    | some g => g
    | none => lgInit
  let res := lgAddListener g listener isLite
  let keyMap1 := jsMapSet st.keyMap key res.1
  let keyMap2 :=
    if res.2.contains WireRequest.unsubscribeReq then jsMapDelete keyMap1 key
    else keyMap1
  { keyMap := keyMap2, wire := st.wire ++ res.2 }

/-- Model of `MapEventsManager.removeKeyListener` (lines 278-285): no-op when
no group exists for the key; otherwise run removeListener, with the same
postUnsubscribe bookkeeping as registration. -/
def removeKeyListener (st : KeyMgrState) (listener : Listener) (key : MapKey) :
    KeyMgrState :=
  match jsMapGet st.keyMap key with
  | none => st
  | some g =>
    let res := lgRemoveListener g listener
    let keyMap1 := jsMapSet st.keyMap key res.1
    let keyMap2 :=
      if res.2.contains WireRequest.unsubscribeReq then jsMapDelete keyMap1 key
      else keyMap1
    { keyMap := keyMap2, wire := st.wire ++ res.2 }

/-! ## ListenerGroup.notifyListeners (map-events-manager.ts, lines 599-613) -/

/-- The event kinds dispatched by the switch in notifyListeners. -/
inductive MapEventId
  | entryInserted
  | entryUpdated
  | entryDeleted
deriving DecidableEq

/-- The part of a `MapEvent` that notifyListeners inspects: its id. -/
structure MapEventM where
  id : MapEventId

/-- A `MapListener`: one sink per event kind. A sink either returns normally
(`Except.ok`) or throws (`Except.error` with the thrown message). -/
structure MapListenerM where
  entryDeleted : MapEventM → Except String Unit
  entryInserted : MapEventM → Except String Unit
  entryUpdated : MapEventM → Except String Unit

/-- The switch inside the notifyListeners loop (lines 601-611): call the sink
matching the event id. -/
def dispatchByEventId (listener : MapListenerM) (ev : MapEventM) : Except String Unit :=
  match ev.id with
  | MapEventId.entryDeleted => listener.entryDeleted ev
  | MapEventId.entryInserted => listener.entryInserted ev
  | MapEventId.entryUpdated => listener.entryUpdated ev

/-- Model of `ListenerGroup.notifyListeners` (lines 599-613): iterate over the
listeners of the group in insertion order. The source has no try/catch around
the sink calls, so a thrown error propagates out of the for-loop and aborts
the iteration. Returns the number of listeners whose sink ran and the
propagated error, if any. -/
def notifyListeners (ev : MapEventM) : List MapListenerM → Nat × Option String
  | [] => (0, none)
  | listener :: rest =>
    match dispatchByEventId listener ev with
    | Except.error e => (1, some e)
    | Except.ok _ =>
      let r := notifyListeners ev rest
      (r.1 + 1, r.2)

/-! ## MapEventsManager stream lifecycle (map-events-manager.ts) -/

/-- The stream-lifecycle fields of `MapEventsManager`: whether `streamPromise`
is non-null, how many times `client.events()` was called, how many INIT
requests were written, the close flag, whether `cancel()` has been called on
the duplex, the uids in `pendingSubscriptions`, and the errors emitted on the
error channel of the map. -/
structure StreamState where
  streamPromise : Bool
  streamsOpened : Nat
  initRequestsWritten : Nat
  markedForClose : Bool
  streamCancelled : Bool
  pendingSubscriptions : List String
  errorsEmitted : List String
deriving DecidableEq

/-- Field initializers of `MapEventsManager` (lines 93-106) before the
constructor body runs: streamPromise null, not marked for close, no pending
subscriptions. -/
def streamStateInit : StreamState :=
  { streamPromise := false, streamsOpened := 0, initRequestsWritten := 0,
    markedForClose := false, streamCancelled := false,
    pendingSubscriptions := [], errorsEmitted := [] }

/-- Model of `MapEventsManager.ensureStream` (lines 159-194): when
`streamPromise` is null, call `client.events()` (opening the duplex stream),
install the data, end, error and cancelled handlers, record the INIT request
uid in `pendingSubscriptions` and write the INIT request; otherwise return the
cached promise unchanged. -/
def ensureStream (initUid : String) (st : StreamState) : StreamState :=
  if st.streamPromise then st
  else
    { st with
      streamPromise := true
      streamsOpened := st.streamsOpened + 1
      initRequestsWritten := st.initRequestsWritten + 1
      pendingSubscriptions := st.pendingSubscriptions ++ [initUid] }

/-- Model of the `MapEventsManager` constructor (lines 141-154): initialize
the maps, then run `this.streamPromise = this.ensureStream()` eagerly, before
any listener can be registered. -/
def mapEventsManagerConstructor (initUid : String) : StreamState :=
  ensureStream initUid streamStateInit

/-- Model of the onError handler (lines 406-410): emit on the error channel of
the map unless `markedForClose` is set. -/
def onError (err : String) (st : StreamState) : StreamState :=
  if !st.markedForClose then { st with errorsEmitted := st.errorsEmitted ++ [err] }
  else st

/-- Model of `MapEventsManager.closeEventStream` (lines 351-369): when not yet
marked for close and a stream promise exists, set `markedForClose`, await the
stream and call `cancel()` on it. The cancellation surfaces as a CANCELLED
error event, which runs the close-local error handler (clearing
`streamPromise` and resolving the close promise) and `onError` (silent,
because `markedForClose` is already set). Nothing in the method touches
`pendingSubscriptions`. -/
def closeEventStream (st : StreamState) : StreamState :=
  if !st.markedForClose && st.streamPromise then
    let st1 := { st with markedForClose := true }
    let st2 := { st1 with streamCancelled := true }
    let st3 := onError "CANCELLED" st2
    { st3 with streamPromise := false }
  else st

/-! ## PagedSet views (streamed_collection.ts, lines 16-154)

The set views hold no state; each method either throws or delegates to a
remote call on the named cache, so a method is embedded as its outcome. -/

/-- What a set-view method does when invoked: throw an error with the given
message, or delegate to the named remote operation. -/
inductive SetOutcome
  | throws (msg : String)
  | delegatesTo (rpc : String)
deriving DecidableEq

/-- PagedSet.add (lines 25-27). -/
def pagedSetAdd : SetOutcome := SetOutcome.throws "add not allowed on paged set."

/-- PagedSet.forEach (lines 38-40). -/
def pagedSetForEach : SetOutcome := SetOutcome.throws "only async iterator supported."

/-- The synchronous Symbol.iterator of PagedSet (lines 51-53). -/
def pagedSetSyncIterator : SetOutcome := SetOutcome.throws "only async iterator supported."

/-- PagedSet.has (lines 43-45), the base implementation marked Overridden. -/
def pagedSetHas : SetOutcome := SetOutcome.throws "Method not implemented."

/-- The three concrete views extending PagedSet. -/
inductive SetViewKind
  | keySet
  | entrySet
  | valueSet
deriving DecidableEq

/-- Method dispatch for `has`: KeySet overrides it (lines 97-99) to delegate to
`namedCache.containsKey`; EntrySet and ValueSet inherit the throwing base. -/
def viewHas : SetViewKind → SetOutcome
  | SetViewKind.keySet => SetOutcome.delegatesTo "containsKey"
  | SetViewKind.entrySet => pagedSetHas
  | SetViewKind.valueSet => pagedSetHas

/-- Method dispatch for `add`: no view overrides the base. -/
def viewAdd : SetViewKind → SetOutcome
  | _ => pagedSetAdd

/-- Method dispatch for `forEach`: no view overrides the base. -/
def viewForEach : SetViewKind → SetOutcome
  | _ => pagedSetForEach

/-- Method dispatch for the synchronous iterator: no view overrides the base. -/
def viewSyncIterator : SetViewKind → SetOutcome
  | _ => pagedSetSyncIterator

/-- Method dispatch for `delete`: KeySet delegates to remove (lines 88-95),
EntrySet to removeMapping (lines 123-125), ValueSet throws (lines 143-145). -/
def viewDelete : SetViewKind → SetOutcome
  | SetViewKind.keySet => SetOutcome.delegatesTo "remove"
  | SetViewKind.entrySet => SetOutcome.delegatesTo "removeMapping"
  | SetViewKind.valueSet => SetOutcome.throws "delete not allowed on paged value set."

/-! ## KeySet.delete resolution (streamed_collection.ts, lines 88-95) -/

/-- A Javascript value as resolved by the delete promise: a boolean or
undefined. -/
inductive JSVal
  | boolean (b : Bool)
  | undef
deriving DecidableEq

/-- Javascript truthiness on the values above. -/
def jsTruthy : JSVal → Bool
  | JSVal.boolean b => b
  | JSVal.undef => false

/-- Javascript short-circuit or: return the left operand if truthy, else the
right operand. -/
def jsOr (a b : JSVal) : JSVal := if jsTruthy a then a else b

/-- Javascript loose inequality `v != null` applied to the prior value the
server reported for the removed key: false exactly when the prior value is
null or undefined (`none`). -/
def jsNotEqNull (prior : Option (List Nat)) : Bool :=
  match prior with
  | none => false
  | some _ => true

/-- Model of the value `KeySet.delete` resolves with (line 92):
`resolve(v != null || undefined)` where `v` is the prior value returned by
`namedCache.remove(key)`. -/
def keySetDeleteResolve (prior : Option (List Nat)) : JSVal :=
  jsOr (JSVal.boolean (jsNotEqNull prior)) JSVal.undef

/-! ## Concrete sample data used by witnesses and counterexamples -/

/-- A concrete helper over raw messages encoded as numbers: message 0 carries
an empty cookie, message r a non-empty cookie; entries are deserialized by
adding 100. -/
def natHelper : StreamedHelper Nat Nat :=
  { extractCookie := fun r => if r == 0 then some [] else some [r]
    handleEntry := fun r => r + 100 }

/-- A manager state with a live stream and one outstanding subscription ack. -/
def closeSample : StreamState :=
  { streamPromise := true, streamsOpened := 1, initRequestsWritten := 1,
    markedForClose := false, streamCancelled := false,
    pendingSubscriptions := ["uid-1"], errorsEmitted := [] }

/-- A listener whose sinks all throw. -/
def throwingListener : MapListenerM :=
  { entryDeleted := fun _ => Except.error "boom"
    entryInserted := fun _ => Except.error "boom"
    entryUpdated := fun _ => Except.error "boom" }

/-- A listener whose sinks all return normally. -/
def benignListener : MapListenerM :=
  { entryDeleted := fun _ => Except.ok ()
    entryInserted := fun _ => Except.ok ()
    entryUpdated := fun _ => Except.ok () }

/-! ## Theorems -/

/-- C1 (code bug): registering the same listener on one key first with
lite = false and then with lite = true leaves the group reachable from the key
map with registeredIsLite = true but isLiteFalseCount = 1, although every
record in the group is lite — addListener never decrements the count when an
existing record flips from non-lite to lite, so the claimed invariant
registeredIsLite = (isLiteFalseCount == 0) fails on the code. -/
theorem listenerGroup_invariant_violation :
    ∃ g, jsMapGet
        (registerKeyListener (registerKeyListener keyMgrInit 1 5 false) 1 5 true).keyMap 5 =
        some g ∧
      g.registeredIsLite = true ∧ g.isLiteFalseCount = 1 ∧
      ∀ rec ∈ g.listeners, rec.2 = true := by
  refine ⟨⟨true, true, [(1, true)], 1⟩, ?_, rfl, rfl, ?_⟩ <;> decide

/-- C3 counterexample: closing the event stream with one outstanding ack
leaves pendingSubscriptions unchanged — the map is not emptied and the pending
ack is not rejected, refuting the claim that after close the pendingAcks map
is empty. -/
theorem closeEventStream_pending_not_cleared :
    (closeEventStream closeSample).pendingSubscriptions = ["uid-1"] ∧
    (closeEventStream closeSample).streamCancelled = true :=
  ⟨rfl, rfl⟩

/-- C3 amended: after closeEventStream on a manager that is not yet marked for
close and has a live stream promise, the stream is cancelled, markedForClose
is set, the stream promise is cleared and no error is surfaced on the error
channel of the map; but pendingSubscriptions is left exactly as it was, so
outstanding acks are neither rejected nor removed. -/
theorem closeEventStream_spec (st : StreamState)
    (h1 : st.markedForClose = false) (h2 : st.streamPromise = true) :
    (closeEventStream st).streamCancelled = true ∧
    (closeEventStream st).markedForClose = true ∧
    (closeEventStream st).streamPromise = false ∧
    (closeEventStream st).errorsEmitted = st.errorsEmitted ∧
    (closeEventStream st).pendingSubscriptions = st.pendingSubscriptions := by
  simp [closeEventStream, onError, h1, h2]

/-- Witness for the amended C3 theorem at the concrete sample state. -/
theorem closeEventStream_spec_witness :
    (closeEventStream closeSample).streamCancelled = true ∧
    (closeEventStream closeSample).markedForClose = true ∧
    (closeEventStream closeSample).streamPromise = false ∧
    (closeEventStream closeSample).errorsEmitted = closeSample.errorsEmitted ∧
    (closeEventStream closeSample).pendingSubscriptions = closeSample.pendingSubscriptions :=
  closeEventStream_spec closeSample rfl rfl

/-- C5 counterexample: with two listeners in a group, the first of which
throws from its sink, notifyListeners runs only one sink and the error
escapes uncaught — the second handler is never notified, refuting the claim
that handler errors are caught per-handler and do not stop dispatch. -/
theorem notify_first_throw_stops_dispatch :
    notifyListeners { id := MapEventId.entryInserted }
      [throwingListener, benignListener] = (1, some "boom") := rfl

/-- C5 amended: an error thrown by a handler propagates out of notifyListeners
and aborts dispatch — every handler before the throwing one runs, the throwing
handler runs, and no handler after it is notified. -/
theorem notify_error_aborts_dispatch (ev : MapEventM) (pre post : List MapListenerM)
    (m : MapListenerM) (e : String)
    (hpre : ∀ x ∈ pre, dispatchByEventId x ev = Except.ok ())
    (hm : dispatchByEventId m ev = Except.error e) :
    notifyListeners ev (pre ++ m :: post) = (pre.length + 1, some e) := by
  induction pre with
  | nil => simp [notifyListeners, hm]
  | cons x xs ih =>
    have hx : dispatchByEventId x ev = Except.ok () := hpre x (by simp)
    have hxs : ∀ y ∈ xs, dispatchByEventId y ev = Except.ok () :=
      fun y hy => hpre y (by simp [hy])
    simp [notifyListeners, hx, ih hxs]

/-- Witness for the amended C5 theorem: one benign handler followed by a
throwing one; both run and the error propagates. -/
theorem notify_error_aborts_dispatch_witness :
    notifyListeners { id := MapEventId.entryDeleted }
      [benignListener, throwingListener] = (2, some "boom") :=
  notify_error_aborts_dispatch { id := MapEventId.entryDeleted } [benignListener] []
    throwingListener "boom"
    (by intro x hx; simp at hx; subst hx; rfl) rfl

/-- C6 (code bug): the constructor alone — before any listener registration —
already opens the duplex stream: line 153 runs ensureStream eagerly, so
client.events() has been called once and the INIT request has been written
even though no listener exists yet. -/
theorem constructor_opens_stream_eagerly :
    (mapEventsManagerConstructor "init-uid").streamsOpened = 1 ∧
    (mapEventsManagerConstructor "init-uid").streamPromise = true ∧
    (mapEventsManagerConstructor "init-uid").initRequestsWritten = 1 :=
  ⟨rfl, rfl, rfl⟩

/-- C7 counterexample: KeySet overrides has to delegate to the remote
containsKey, so has on the KeySet view does not fail with
UnsupportedOperation. -/
theorem keySet_has_delegates :
    viewHas SetViewKind.keySet = SetOutcome.delegatesTo "containsKey" ∧
    ¬ ∃ msg, viewHas SetViewKind.keySet = SetOutcome.throws msg := by
  refine ⟨rfl, ?_⟩
  rintro ⟨msg, hmsg⟩
  simp [viewHas] at hmsg

/-- C7 amended: forEach, the synchronous iterator and add throw on every view,
and has throws on EntrySet and ValueSet; KeySet.has instead delegates to the
remote containsKey. -/
theorem pagedSet_sync_ops_unsupported (v : SetViewKind) :
    viewForEach v = SetOutcome.throws "only async iterator supported." ∧
    viewSyncIterator v = SetOutcome.throws "only async iterator supported." ∧
    viewAdd v = SetOutcome.throws "add not allowed on paged set." ∧
    viewHas SetViewKind.entrySet = SetOutcome.throws "Method not implemented." ∧
    viewHas SetViewKind.valueSet = SetOutcome.throws "Method not implemented." ∧
    viewHas SetViewKind.keySet = SetOutcome.delegatesTo "containsKey" := by
  cases v <;> exact ⟨rfl, rfl, rfl, rfl, rfl, rfl⟩

/-- C8 counterexample: when the server reports no prior value for the key,
KeySet.delete resolves with undefined, not with false. -/
theorem keySetDelete_no_prior_resolves_undefined :
    keySetDeleteResolve none = JSVal.undef ∧ JSVal.undef ≠ JSVal.boolean false :=
  ⟨rfl, by decide⟩

/-- C8 amended: KeySet.delete resolves with true exactly when the server
reported a prior value; with no prior value it resolves with undefined, a
falsy value distinct from the boolean false. -/
theorem keySetDelete_resolution (bs : List Nat) :
    keySetDeleteResolve (some bs) = JSVal.boolean true ∧
    keySetDeleteResolve none = JSVal.undef ∧
    jsTruthy (keySetDeleteResolve none) = false :=
  ⟨rfl, rfl, rfl⟩

/-- Draining the buffer: the run yields the deserialized buffer contents first
and then continues from the empty-buffer state. -/
lemma runAdvancer_drain (h : StreamedHelper R T) (e : Bool) (d : List R) (c : Cookie)
    (pages : List (List R)) :
    runAdvancer h ⟨e, d, c⟩ pages = d.map h.handleEntry ++ runAdvancer h ⟨e, [], c⟩ pages := by
  induction d with
  | nil => simp
  | cons x xs ih => simp [runAdvancer, ih]

/-- Unfolding: from the empty buffer in the exhausted state the run stops. -/
lemma runAdvancer_exhausted (h : StreamedHelper R T) (c : Cookie) (pages : List (List R)) :
    runAdvancer h ⟨true, [], c⟩ pages = [] := by
  rw [runAdvancer.eq_def]
  rfl

/-- Unfolding: from the empty buffer in the non-exhausted state the run loads
the next page and continues. -/
lemma runAdvancer_load (h : StreamedHelper R T) (c : Cookie) (p : List R)
    (ps : List (List R)) :
    runAdvancer h ⟨false, [], c⟩ (p :: ps) =
      runAdvancer h (loadNextPage h ⟨false, [], c⟩ p) ps := by
  rw [runAdvancer.eq_def]
  rfl

/-- From an empty buffer in the non-exhausted state, the run yields exactly
the deserialized non-first messages of the pages up to and including the
first page with an empty cookie, whatever the current cookie is. -/
lemma runAdvancer_empty_buffer (h : StreamedHelper R T) (pages : List (List R))
    (hne : ∀ p ∈ pages, p ≠ []) (c : Cookie) :
    runAdvancer h ⟨false, [], c⟩ pages = (fetchedEntries h pages).map h.handleEntry := by
  induction pages generalizing c with
  | nil => simp [runAdvancer, fetchedEntries]
  | cons p ps ih =>
    obtain ⟨f, r, rfl⟩ : ∃ f r, p = f :: r := by
      cases p with
      | nil => exact absurd rfl (hne [] (by simp))
      | cons f r => exact ⟨f, r, rfl⟩
    have hne' : ∀ q ∈ ps, q ≠ [] := fun q hq => hne q (by simp [hq])
    rw [runAdvancer_load]
    rw [show loadNextPage h ⟨false, [], c⟩ (f :: r) =
          ⟨cookieIsEmpty (h.extractCookie f), r, h.extractCookie f⟩ from rfl]
    rw [runAdvancer_drain]
    by_cases hc : cookieIsEmpty (h.extractCookie f) = true
    · rw [hc, runAdvancer_exhausted]
      simp [fetchedEntries, pageCookieEmpty, hc]
    · rw [Bool.not_eq_true] at hc
      rw [hc, ih hne' (h.extractCookie f)]
      simp [fetchedEntries, pageCookieEmpty, hc]

/-- C2: for every server page sequence — each page opening with its cookie
envelope, and some page carrying an empty cookie — the values produced by
repeated next() calls equal, in order, handleEntry applied to the
concatenation of the non-first messages of every page fetched until the page
whose cookie is empty; the first message of each page is consumed only as the
cookie and is never yielded as an item. -/
theorem advancer_yields_nonfirst_messages (h : StreamedHelper R T) (pages : List (List R))
    (hne : ∀ p ∈ pages, p ≠ [])
    (_hterm : ∃ p ∈ pages, pageCookieEmpty h p = true) :
    runAdvancer h advInit pages = (fetchedEntries h pages).map h.handleEntry := by
  have hrun := runAdvancer_empty_buffer h pages hne none
  simpa [advInit] using hrun

/-- Witness for C2 at a concrete two-page sequence: page one has cookie
envelope 1 and entries 11, 12; page two has the empty-cookie envelope 0 and
entry 13. -/
theorem advancer_yields_nonfirst_messages_witness :
    runAdvancer natHelper advInit [[1, 11, 12], [0, 13]] =
      (fetchedEntries natHelper [[1, 11, 12], [0, 13]]).map natHelper.handleEntry ∧
    (fetchedEntries natHelper [[1, 11, 12], [0, 13]]).map natHelper.handleEntry =
      [111, 112, 113] :=
  ⟨advancer_yields_nonfirst_messages natHelper [[1, 11, 12], [0, 13]]
      (by decide) (by decide),
    by decide⟩

/-- Unfolding: the RPC count ignores buffered values. -/
lemma runAdvancerRPCs_drain (h : StreamedHelper R T) (e : Bool) (d : List R) (c : Cookie)
    (pages : List (List R)) :
    runAdvancerRPCs h ⟨e, d, c⟩ pages = runAdvancerRPCs h ⟨e, [], c⟩ pages := by
  induction d with
  | nil => rfl
  | cons x xs ih => simp [runAdvancerRPCs, ih]

/-- Unfolding: from the empty buffer in the exhausted state no RPC is issued. -/
lemma runAdvancerRPCs_exhausted (h : StreamedHelper R T) (c : Cookie)
    (pages : List (List R)) :
    runAdvancerRPCs h ⟨true, [], c⟩ pages = 0 := by
  rw [runAdvancerRPCs.eq_def]
  rfl

/-- Unfolding: from the empty buffer in the non-exhausted state one RPC is
issued and the run continues from the loaded page. -/
lemma runAdvancerRPCs_load (h : StreamedHelper R T) (c : Cookie) (p : List R)
    (ps : List (List R)) :
    runAdvancerRPCs h ⟨false, [], c⟩ (p :: ps) =
      runAdvancerRPCs h (loadNextPage h ⟨false, [], c⟩ p) ps + 1 := by
  rw [runAdvancerRPCs.eq_def]
  rfl

/-- From an empty buffer in the non-exhausted state, the total number of page
RPCs equals the position of the first empty-cookie page plus one. -/
lemma runAdvancerRPCs_empty_buffer (h : StreamedHelper R T) (pages : List (List R))
    (hne : ∀ p ∈ pages, p ≠ [])
    (hterm : ∃ p ∈ pages, pageCookieEmpty h p = true) (c : Cookie) :
    runAdvancerRPCs h ⟨false, [], c⟩ pages =
      pages.findIdx (fun p => pageCookieEmpty h p) + 1 := by
  induction pages generalizing c with
  | nil => simp at hterm
  | cons p ps ih =>
    obtain ⟨f, r, rfl⟩ : ∃ f r, p = f :: r := by
      cases p with
      | nil => exact absurd rfl (hne [] (by simp))
      | cons f r => exact ⟨f, r, rfl⟩
    have hne' : ∀ q ∈ ps, q ≠ [] := fun q hq => hne q (by simp [hq])
    rw [runAdvancerRPCs_load]
    rw [show loadNextPage h ⟨false, [], c⟩ (f :: r) =
          ⟨cookieIsEmpty (h.extractCookie f), r, h.extractCookie f⟩ from rfl]
    rw [runAdvancerRPCs_drain]
    by_cases hc : cookieIsEmpty (h.extractCookie f) = true
    · rw [hc, runAdvancerRPCs_exhausted]
      simp [List.findIdx_cons, pageCookieEmpty, hc]
    · rw [Bool.not_eq_true] at hc
      have hterm' : ∃ q ∈ ps, pageCookieEmpty h q = true := by
        rcases hterm with ⟨q, hq, hqc⟩
        rcases List.mem_cons.mp hq with rfl | hq'
        · exact absurd hqc (by simp [pageCookieEmpty, hc])
        · exact ⟨q, hq', hqc⟩
      rw [hc, ih hne' hterm' (h.extractCookie f)]
      simp [List.findIdx_cons, pageCookieEmpty, hc]

/-- C4: iteration terminates after consuming exactly one page whose extracted
cookie is empty — the number of page RPCs issued equals the index of the first
empty-cookie page plus one. In particular a page carrying only a non-empty
cookie envelope and zero entries still triggers the next page load, while the
first empty-cookie page ends iteration and no page after it is fetched. -/
theorem advancer_stops_after_first_empty_cookie (h : StreamedHelper R T)
    (pages : List (List R)) (hne : ∀ p ∈ pages, p ≠ [])
    (hterm : ∃ p ∈ pages, pageCookieEmpty h p = true) :
    runAdvancerRPCs h advInit pages =
      pages.findIdx (fun p => pageCookieEmpty h p) + 1 := by
  have := runAdvancerRPCs_empty_buffer h pages hne hterm none
  simpa [advInit] using this

/-- Witness for C4 at a concrete three-page sequence whose first page is a
cookie-only page with zero entries: all three pages are fetched, the empty
cookie of the third ends iteration. -/
theorem advancer_stops_after_first_empty_cookie_witness :
    runAdvancerRPCs natHelper advInit [[5], [3, 7], [0]] =
      [[5], [3, 7], [0]].findIdx (fun p => pageCookieEmpty natHelper p) + 1 ∧
    [[5], [3, 7], [0]].findIdx (fun p => pageCookieEmpty natHelper p) + 1 = 3 :=
  ⟨advancer_stops_after_first_empty_cookie natHelper [[5], [3, 7], [0]]
      (by decide) (by decide),
    by decide⟩

/-- Unfolding: a nextCall on a non-empty buffer yields its front. -/
lemma nextCall_value (h : StreamedHelper R T) (e : Bool) (d : R) (ds : List R)
    (c : Cookie) (pages : List (List R)) :
    nextCall h ⟨e, d :: ds, c⟩ pages =
      (NextOutcome.value (h.handleEntry d), ⟨e, ds, c⟩, pages, 0) := by
  rw [nextCall.eq_def]

/-- Unfolding: a nextCall on an empty buffer in the exhausted state is done,
changes nothing and issues no RPC. -/
lemma nextCall_done_eq (h : StreamedHelper R T) (c : Cookie) (pages : List (List R)) :
    nextCall h ⟨true, [], c⟩ pages = (NextOutcome.done, ⟨true, [], c⟩, pages, 0) := by
  rw [nextCall.eq_def]
  rfl

/-- Unfolding: the model is stuck when the finite page list runs out. -/
lemma nextCall_stuck_eq (h : StreamedHelper R T) (c : Cookie) :
    nextCall h ⟨false, [], c⟩ ([] : List (List R)) =
      (NextOutcome.stuck, ⟨false, [], c⟩, [], 0) := by
  rw [nextCall.eq_def]
  rfl

/-- Unfolding: a nextCall on an empty buffer in the non-exhausted state loads
the next page, recurses, and accounts one more RPC. -/
lemma nextCall_load (h : StreamedHelper R T) (c : Cookie) (p : List R)
    (ps : List (List R)) :
    nextCall h ⟨false, [], c⟩ (p :: ps) =
      ((nextCall h (loadNextPage h ⟨false, [], c⟩ p) ps).1,
       (nextCall h (loadNextPage h ⟨false, [], c⟩ p) ps).2.1,
       (nextCall h (loadNextPage h ⟨false, [], c⟩ p) ps).2.2.1,
       (nextCall h (loadNextPage h ⟨false, [], c⟩ p) ps).2.2.2 + 1) := by
  rw [nextCall.eq_def]
  rfl

/-- Unfolding: the run is empty when the page list runs out on an empty
buffer. -/
lemma runAdvancer_stuck (h : StreamedHelper R T) (c : Cookie) :
    runAdvancer h ⟨false, [], c⟩ ([] : List (List R)) = [] := by
  rw [runAdvancer.eq_def]
  rfl

/-- Unfolding: no RPC is issued when the page list runs out on an empty
buffer. -/
lemma runAdvancerRPCs_stuck (h : StreamedHelper R T) (c : Cookie) :
    runAdvancerRPCs h ⟨false, [], c⟩ ([] : List (List R)) = 0 := by
  rw [runAdvancerRPCs.eq_def]
  rfl

/-- The run list is the unfolding of repeated nextCall invocations: it yields
the value of each call and stops at the first call that returns no value. -/
lemma runAdvancer_eq_nextCall (h : StreamedHelper R T) (st : PageAdvancerState R)
    (pages : List (List R)) :
    runAdvancer h st pages =
      (match nextCall h st pages with
       | (NextOutcome.value t, st', ps', _) => t :: runAdvancer h st' ps'
       | _ => []) := by
  induction pages generalizing st with
  | nil =>
    obtain ⟨e, d, c⟩ := st
    cases d with
    | cons x xs =>
      rw [nextCall_value]
      simp [runAdvancer]
    | nil =>
      cases e with
      | true => rw [nextCall_done_eq, runAdvancer_exhausted]
      | false => rw [nextCall_stuck_eq, runAdvancer_stuck]
  | cons p ps ih =>
    obtain ⟨e, d, c⟩ := st
    cases d with
    | cons x xs =>
      rw [nextCall_value]
      simp [runAdvancer]
    | nil =>
      cases e with
      | true => rw [nextCall_done_eq, runAdvancer_exhausted]
      | false =>
        rw [runAdvancer_load, nextCall_load, ih (loadNextPage h ⟨false, [], c⟩ p)]
        rcases hq : nextCall h (loadNextPage h ⟨false, [], c⟩ p) ps with ⟨o, a, b, m⟩
        cases o <;> rfl

/-- The RPC count is the sum of the per-call RPC counts over repeated nextCall
invocations. -/
lemma runAdvancerRPCs_eq_nextCall (h : StreamedHelper R T) (st : PageAdvancerState R)
    (pages : List (List R)) :
    runAdvancerRPCs h st pages =
      (nextCall h st pages).2.2.2 +
        (match (nextCall h st pages).1 with
         | NextOutcome.value _ =>
           runAdvancerRPCs h (nextCall h st pages).2.1 (nextCall h st pages).2.2.1
         | _ => 0) := by
  induction pages generalizing st with
  | nil =>
    obtain ⟨e, d, c⟩ := st
    cases d with
    | cons x xs =>
      rw [nextCall_value]
      simp [runAdvancerRPCs]
    | nil =>
      cases e with
      | true =>
        rw [nextCall_done_eq, runAdvancerRPCs_exhausted]
        rfl
      | false =>
        rw [nextCall_stuck_eq, runAdvancerRPCs_stuck]
        rfl
  | cons p ps ih =>
    obtain ⟨e, d, c⟩ := st
    cases d with
    | cons x xs =>
      rw [nextCall_value]
      simp [runAdvancerRPCs]
    | nil =>
      cases e with
      | true =>
        rw [nextCall_done_eq, runAdvancerRPCs_exhausted]
        rfl
      | false =>
        rw [runAdvancerRPCs_load, nextCall_load, ih (loadNextPage h ⟨false, [], c⟩ p)]
        rcases hq : nextCall h (loadNextPage h ⟨false, [], c⟩ p) ps with ⟨o, a, b, m⟩
        cases o <;> (simp; try omega)

/-- C10: once a next() call has resolved done, every further next() call
resolves done again with the state and remaining pages unchanged and zero page
RPCs issued — a done result always carries an empty buffer and a set exhausted
flag, and that configuration is a fixed point of nextCall. -/
theorem nextCall_done_absorbing (h : StreamedHelper R T) (st st' : PageAdvancerState R)
    (pages ps' : List (List R)) (n : Nat)
    (hdone : nextCall h st pages = (NextOutcome.done, st', ps', n)) :
    st'.data = [] ∧ st'.exhausted = true ∧
      nextCall h st' ps' = (NextOutcome.done, st', ps', 0) := by
  induction pages generalizing st n with
  | nil =>
    obtain ⟨e, d, c⟩ := st
    cases d with
    | cons x xs =>
      rw [nextCall_value] at hdone
      simp at hdone
    | nil =>
      cases e with
      | true =>
        rw [nextCall_done_eq] at hdone
        simp only [Prod.mk.injEq, true_and] at hdone
        obtain ⟨hst, hps, -⟩ := hdone
        subst hst
        subst hps
        exact ⟨rfl, rfl, nextCall_done_eq h c _⟩
      | false =>
        rw [nextCall_stuck_eq] at hdone
        simp at hdone
  | cons p ps ih =>
    obtain ⟨e, d, c⟩ := st
    cases d with
    | cons x xs =>
      rw [nextCall_value] at hdone
      simp at hdone
    | nil =>
      cases e with
      | true =>
        rw [nextCall_done_eq] at hdone
        simp only [Prod.mk.injEq, true_and] at hdone
        obtain ⟨hst, hps, -⟩ := hdone
        subst hst
        subst hps
        exact ⟨rfl, rfl, nextCall_done_eq h c _⟩
      | false =>
        rw [nextCall_load] at hdone
        simp only [Prod.mk.injEq] at hdone
        obtain ⟨h1, h2, h3, -⟩ := hdone
        have hrec : nextCall h (loadNextPage h ⟨false, [], c⟩ p) ps =
            (NextOutcome.done, st', ps',
              (nextCall h (loadNextPage h ⟨false, [], c⟩ p) ps).2.2.2) := by
          rcases hq : nextCall h (loadNextPage h ⟨false, [], c⟩ p) ps with ⟨o, a, b, m⟩
          rw [hq] at h1 h2 h3
          simp only at h1 h2 h3
          simp only [Prod.mk.injEq, and_true]
          exact ⟨h1, h2, h3⟩
        exact ih _ _ hrec

/-- Witness for C10 at the concrete exhausted empty-buffer state. -/
theorem nextCall_done_absorbing_witness :
    (⟨true, [], some []⟩ : PageAdvancerState Nat).data = [] ∧
    (⟨true, [], some []⟩ : PageAdvancerState Nat).exhausted = true ∧
    nextCall natHelper ⟨true, [], some []⟩ ([] : List (List Nat)) =
      (NextOutcome.done, ⟨true, [], some []⟩, [], 0) :=
  nextCall_done_absorbing natHelper ⟨true, [], some []⟩ ⟨true, [], some []⟩ [] [] 0
    (nextCall_done_eq natHelper (some []) [])

/-- C9: adding the same listener twice with the same lite flag to a fresh
group: the first call writes exactly one SUBSCRIBE request (and no other
request) on the wire, and the second call is a no-op that returns the group
unchanged — same records, same counters — and writes nothing. -/
theorem addListener_idempotent (l : Listener) (lite : Bool) :
    (lgAddListener lgInit l lite).2 = [WireRequest.subscribeReq lite] ∧
    lgAddListener (lgAddListener lgInit l lite).1 l lite =
      ((lgAddListener lgInit l lite).1, []) := by
  cases lite <;>
    simp [lgAddListener, lgAddListenerInsert, lgInit, jsMapGet, jsMapSet]

end Coherence
